import Mathlib

/-!
Verification of the carrier-pricing analytical core.

The original system operates on columnar dataframes; here a dataframe is a
`List` of records, a nullable column value is an `Option`, and float columns
are modelled with exact rationals (every IEEE float is a rational).  The
floating-point square root and the external Gaussian kernel-density routine
are abstracted as function parameters (their exact float behaviour is not
reproducible here), while all control flow, filtering, grouping and
aggregation is translated directly from the source.
-/

set_option maxRecDepth 8000

namespace CarrierPricing

/-- Calendar date.  Only the year is consumed by the estimator
(via the `dt.year()` projection). -/
structure Date where
  year : ℤ
  month : ℕ
  day : ℕ
deriving DecidableEq

/-- One shipment record restricted to the columns the price estimator
consumes: the `required_cols` projection produced by
`find_similar_routes_by_postcode`.  Nullable columns are `Option`s. -/
structure Record where
  origin_postcode : String
  destination_postcode : String
  carrier_price : Option ℚ
  vehicle_type : String
  pickup_date : Option Date
  contract_type : String
  shipper_price : Option ℚ
  carrier_name : String
  shipper_id : ℤ
deriving DecidableEq

/-- The route-key expression of `create_route_key`: the two raw postcode
column values ordered lexicographically and joined with the separator
literal.  (Polars compares strings bytewise; UTF-8 byte order coincides with
the code-point lexicographic order used here.) -/
def routeKeyOf (o d : String) : String :=
  if o < d then o ++ " - " ++ d else d ++ " - " ++ o

/-- A record together with its computed `route_key` column. -/
structure KeyedRecord extends Record where
  route_key : String
deriving DecidableEq

/-- `create_route_key`: append a non-directional `route_key` column built
from the origin and destination postcode columns. -/
def create_route_key (df : List Record) : List KeyedRecord :=
  df.map fun r => { toRecord := r, route_key := routeKeyOf r.origin_postcode r.destination_postcode }

/-- The row filter of `estimate_price_from_df`:
`carrier_price.is_not_null() & (carrier_price != 0) & (pickup_date.is_not_null())`.
Polars three-valued logic collapses to this boolean: a null price makes the
first conjunct false, so the null propagating through `!= 0` never survives
the conjunction, and `filter` keeps only rows where the whole expression is
true. -/
def keepRow (r : Record) : Bool :=
  match r.carrier_price with
  | none => false
  | some p => decide (p ≠ 0) && r.pickup_date.isSome

/-- The filtered dataframe inside `estimate_price_from_df` (the cast of
`carrier_price` to Float64 is the identity in this rational model). -/
def filteredRows (df : List Record) : List KeyedRecord :=
  (create_route_key df).filter fun r => keepRow r.toRecord

/-- `pl.col(date_column).dt.year()` on a row of the filtered frame (the
filter guarantees the date is non-null; the default is never reached). -/
def pickupYear (r : Record) : ℤ :=
  (r.pickup_date.map Date.year).getD 0

/-- The `time_weight` column: `1.0 / (years_ago + 1)` with
`years_ago = current_year - pickup year` when time weighting is on,
literal `1.0` otherwise. -/
def timeWeight (use_time_weighting : Bool) (currentYear : ℤ) (r : Record) : ℚ :=
  if use_time_weighting then 1 / (((currentYear - pickupYear r) + 1 : ℤ) : ℚ) else 1

/-- The filtered frame with its `time_weight` column. -/
def weightedRows (df : List Record) (currentYear : ℤ) (use_time_weighting : Bool) :
    List (KeyedRecord × ℚ) :=
  (filteredRows df).map fun r => (r, timeWeight use_time_weighting currentYear r.toRecord)

/-- The `group_by(["route_key", "carrier_price"])` key of a row.  On the
filtered frame the price is non-null, so `getD` reads the actual value. -/
def groupKey (r : KeyedRecord) : String × ℚ :=
  (r.route_key, r.carrier_price.getD 0)

/-- One output row of the `group_by(...).agg(...)` step. -/
structure PriceGroup where
  route_key : String
  carrier_price : ℚ
  volume : ℕ
  avg_time_weight : ℚ
deriving DecidableEq

/-- The grouped frame: one row per distinct `(route_key, carrier_price)`
key carrying `pl.count()` as `volume` and `pl.mean("time_weight")` as
`avg_time_weight`.  (Polars leaves group order unspecified; every statistic
read from this frame is order-independent.) -/
def groupsOf (rows : List (KeyedRecord × ℚ)) : List PriceGroup :=
  ((rows.map fun rw => groupKey rw.1).dedup).map fun k =>
    let members := rows.filter fun rw => decide (groupKey rw.1 = k)
    { route_key := k.1
      carrier_price := k.2
      volume := members.length
      avg_time_weight := (members.map fun rw => rw.2).sum / (members.length : ℚ) }

/-- `pl.mean` of a column. -/
def listMean (l : List ℚ) : ℚ := l.sum / (l.length : ℚ)

/-- `pl.median` of a column: middle element of the sorted values, or the
average of the two middle elements for an even count. -/
def listMedian (l : List ℚ) : ℚ :=
  let s := l.mergeSort fun a b => decide (a ≤ b)
  let n := l.length
  if n % 2 = 1 then s.getD (n / 2) 0
  else (s.getD (n / 2 - 1) 0 + s.getD (n / 2) 0) / 2

/-- `pl.min` of a column (0 on an empty column, never read that way). -/
def listMin : List ℚ → ℚ
  | [] => 0
  | x :: xs => xs.foldl min x

/-- `pl.max` of a column (0 on an empty column, never read that way). -/
def listMax : List ℚ → ℚ
  | [] => 0
  | x :: xs => xs.foldl max x

/-- Sample variance with the n−1 divisor: the square of `std(ddof=1)`. -/
def sampleVar (l : List ℚ) : ℚ :=
  (l.map fun x => (x - listMean l) ^ 2).sum / ((l.length : ℚ) - 1)

/-- Population variance (divisor n): the square of `np.std(costs)`. -/
def varPop (l : List ℚ) : ℚ :=
  (l.map fun x => (x - listMean l) ^ 2).sum / (l.length : ℚ)

/-- The statistics row returned by `estimate_price_from_df`. -/
structure Stats where
  volume_time_weighted_avg_cost : ℚ
  avg_cost : ℚ
  median_cost : ℚ
  min_cost : ℚ
  max_cost : ℚ
  stddev_cost : Option ℚ
  valid_count : ℕ
deriving DecidableEq

/-- The column of prices carried by the grouped frame (one per distinct
`(route_key, carrier_price)` group). -/
def groupPrices (df : List Record) (currentYear : ℤ) (use_time_weighting : Bool) : List ℚ :=
  (groupsOf (weightedRows df currentYear use_time_weighting)).map PriceGroup.carrier_price

/-- The ungrouped column of qualifying carrier prices (one per filtered row). -/
def rowPrices (df : List Record) : List ℚ :=
  (filteredRows df).map fun r => r.carrier_price.getD 0

/-- `estimate_price_from_df`.  `fsqrt` abstracts the floating-point square
root used by `std(ddof=1)` (polars yields null for the standard deviation
of a single sample, hence the `Option`). -/
def estimate_price_from_df (fsqrt : ℚ → ℚ) (df : List Record)
    (currentYear : ℤ) (use_time_weighting : Bool) : Option Stats :=
  if df.isEmpty then none
  else
    let filtered := filteredRows df
    if filtered.isEmpty then none
    else
      let groups := groupsOf (weightedRows df currentYear use_time_weighting)
      let adjVolSum := (groups.map fun g => (g.volume : ℚ) * g.avg_time_weight).sum
      let adjCostSum := (groups.map fun g => g.carrier_price * (g.volume : ℚ) * g.avg_time_weight).sum
      let gp := groups.map PriceGroup.carrier_price
      some
        { volume_time_weighted_avg_cost := adjCostSum / adjVolSum
          avg_cost := listMean gp
          median_cost := listMedian gp
          min_cost := listMin gp
          max_cost := listMax gp
          stddev_cost := if 2 ≤ gp.length then some (fsqrt (sampleVar gp)) else none
          valid_count := (groups.map PriceGroup.volume).sum }

/-- `join_dfs`: vertical concatenation without deduplication. -/
def join_dfs (dfs : List (List Record)) : List Record := dfs.flatten

/-- A statistics row annotated with the winning-tier explanation. -/
structure StatsE extends Stats where
  explanation : String
deriving DecidableEq

/-- The explanation string attached by `estimate_price`. -/
def explanationText (count : ℕ) (label : String) : String :=
  "Estimated from " ++ toString count ++ " loads; (" ++ label ++ ")."

/-- The inner `try_tier` helper of `estimate_price`: a tier answers only if
its statistics exist and `valid_count` meets the minimum-count threshold
(a non-`None` statistics dict is always truthy). -/
def try_tier (fsqrt : ℚ → ℚ) (min_count : ℕ) (currentYear : ℤ) (use_time_weighting : Bool)
    (df : List Record) (label : String) : Option StatsE :=
  match estimate_price_from_df fsqrt df currentYear use_time_weighting with
  | some stats =>
      if min_count ≤ stats.valid_count then
        some { toStats := stats, explanation := explanationText stats.valid_count label }
      else none
  | none => none

/-- `estimate_price`: the tiered fallback (defaults in the source:
`min_count = 5`, `use_time_weighting = True`). -/
def estimate_price (fsqrt : ℚ → ℚ)
    (matches_3 within_10 within_20 matches_2 : List Record)
    (min_count : ℕ) (use_time_weighting : Bool) (currentYear : ℤ) : Option StatsE :=
  match try_tier fsqrt min_count currentYear use_time_weighting matches_3
      "3-letter prefix" with
  | some result => some result
  | none =>
  match try_tier fsqrt min_count currentYear use_time_weighting
      (join_dfs [matches_3, within_10]) "3-letter prefix + within 10km" with
  | some result => some result
  | none =>
  match try_tier fsqrt min_count currentYear use_time_weighting
      (join_dfs [matches_3, within_10, within_20])
      "3-letter prefix + within 10km + within 20km" with
  | some result => some result
  | none =>
  match try_tier fsqrt min_count currentYear use_time_weighting
      (join_dfs [matches_3, within_10, within_20, matches_2])
      "3-letter prefix + within 10km + within 20km + 2-letter prefix" with
  | some result => some result
  | none => none

/-- Modelled from the spec: walk the tier combinations in order and return
the statistic of the first whose `valid_count` meets the threshold,
annotated with the explanation; `none` when no combination qualifies.  Used
as the specification side of the refinement statement for the tiered
fallback. -/
def firstQualifyingTier (fsqrt : ℚ → ℚ) (min_count : ℕ) (currentYear : ℤ)
    (use_time_weighting : Bool) : List (List Record × String) → Option StatsE
  | [] => none
  | (df, label) :: rest =>
    match estimate_price_from_df fsqrt df currentYear use_time_weighting with
    | some stats =>
        if min_count ≤ stats.valid_count then
          some { toStats := stats, explanation := explanationText stats.valid_count label }
        else firstQualifyingTier fsqrt min_count currentYear use_time_weighting rest
    | none => firstQualifyingTier fsqrt min_count currentYear use_time_weighting rest

/-- `routeKeyOf` is the lexicographic min joined to the lexicographic max. -/
theorem routeKeyOf_min_max (o d : String) :
    routeKeyOf o d = min o d ++ " - " ++ max o d := by
  unfold routeKeyOf
  rcases lt_or_le o d with h | h
  · rw [if_pos h, min_eq_left h.le, max_eq_right h.le]
  · rw [if_neg (not_lt.mpr h), min_eq_right h, max_eq_left h]

/-- Claim C7: the route key is symmetric — for every pair of postcode
strings `A` and `B`, the key computed from origin `A` and destination `B`
equals the key computed from origin `B` and destination `A`. -/
theorem routeKey_symm (A B : String) : routeKeyOf A B = routeKeyOf B A := by
  rw [routeKeyOf_min_max, routeKeyOf_min_max, min_comm, max_comm]

/-- A record with the fields the estimator never reads held fixed. -/
def sampleRecord (o d : String) (p : Option ℚ) (dt : Option Date) : Record :=
  { origin_postcode := o, destination_postcode := d, carrier_price := p,
    vehicle_type := "Van", pickup_date := dt, contract_type := "spot",
    shipper_price := none, carrier_name := "acme", shipper_id := 1 }

/-- Claim C8, counterexample: `create_route_key` applies no whitespace or
case normalization, so two records whose postcodes differ only in spacing
and case receive different route keys. -/
theorem routeKey_not_normalized :
    (create_route_key
        [sampleRecord "sw1a 1aa" "B33" (some 100) (some ⟨2025, 1, 1⟩),
         sampleRecord "SW1A1AA" "B33" (some 100) (some ⟨2025, 1, 1⟩)]).map
        KeyedRecord.route_key
      = ["B33 - sw1a 1aa", "B33 - SW1A1AA"] ∧
    ("B33 - sw1a 1aa" : String) ≠ "B33 - SW1A1AA" := by
  have h1 : ¬ ("sw1a 1aa" : String) < "B33" := by
    rw [String.lt_iff_toList_lt]; decide
  have h2 : ¬ ("SW1A1AA" : String) < "B33" := by
    rw [String.lt_iff_toList_lt]; decide
  refine ⟨?_, by decide⟩
  simp [create_route_key, routeKeyOf, sampleRecord, h1, h2]
  decide

/-- Claim C8, amended: the route key of every record is its two raw
postcode strings (as stored, with no normalization) ordered
lexicographically and joined with the literal separator. -/
theorem create_route_key_lex_serialization (df : List Record) :
    (create_route_key df).map KeyedRecord.route_key =
      df.map fun r =>
        min r.origin_postcode r.destination_postcode ++ " - " ++
          max r.origin_postcode r.destination_postcode := by
  simp [create_route_key, routeKeyOf_min_max]

/-- Claim C9: on an empty dataset, or one in which every row has a null or
zero carrier price or a null pickup date, `estimate_price_from_df` returns
`none` — never a numeric result. -/
theorem estimate_price_from_df_no_priceable (fsqrt : ℚ → ℚ) (df : List Record)
    (y : ℤ) (w : Bool)
    (h : ∀ r ∈ df,
        r.carrier_price = none ∨ r.carrier_price = some 0 ∨ r.pickup_date = none) :
    estimate_price_from_df fsqrt df y w = none := by
  have hf : filteredRows df = [] := by
    unfold filteredRows create_route_key
    rw [List.filter_eq_nil_iff]
    intro a ha
    rw [List.mem_map] at ha
    obtain ⟨r, hr, rfl⟩ := ha
    rcases h r hr with h1 | h1 | h1 <;>
      cases hp : r.carrier_price <;>
        simp_all [keepRow]
  simp [estimate_price_from_df, hf]

/-- Witness for C9 at a concrete single-row dataset with a null price. -/
theorem estimate_price_from_df_no_priceable_witness :
    estimate_price_from_df id
      [sampleRecord "AA1" "BB2" none (some ⟨2024, 5, 1⟩)] 2025 true = none :=
  estimate_price_from_df_no_priceable id
    [sampleRecord "AA1" "BB2" none (some ⟨2024, 5, 1⟩)] 2025 true (by decide)

/-- Concrete one-row dataset used to exercise the time-weight property. -/
def c5df : List Record := [sampleRecord "AA1" "BB2" (some 50) (some ⟨2024, 5, 1⟩)]

/-- The keyed row `c5df` produces ("AA1" sorts before "BB2"). -/
def c5row : KeyedRecord :=
  { toRecord := sampleRecord "AA1" "BB2" (some 50) (some ⟨2024, 5, 1⟩),
    route_key := "AA1 - BB2" }

/-- A future-dated pickup (year 2027 seen from 2025): the row filter only
requires the date to be non-null, so this row qualifies. -/
def c5future : Record := sampleRecord "AA1" "BB2" (some 50) (some ⟨2027, 5, 1⟩)

/-- The keyed form of `c5future`. -/
def c5futureK : KeyedRecord :=
  { toRecord := c5future, route_key := "AA1 - BB2" }

/-- Evaluation of the weighted frame on the future-dated dataset: the
code does not clamp, so `years_ago = 2025 − 2027 = −2` and the weight is
`1 / (−2 + 1) = −1`. -/
theorem c5futureEval : weightedRows [c5future] 2025 true = [(c5futureK, -1)] := by
  have h : ("AA1" : String) < "BB2" := by
    rw [String.lt_iff_toList_lt]; decide
  simp only [weightedRows, filteredRows, create_route_key, c5future, c5futureK, sampleRecord,
    keepRow, timeWeight, pickupYear, routeKeyOf, List.map, List.filter, h, if_true,
    if_pos, Option.isSome, Option.map, Option.getD]
  norm_num
  rfl

/-- Claim C5, counterexample: a qualifying row of the weighted frame whose
`years_ago = current year − pickup year` is negative — the code does not
clamp, so for a future-dated pickup (which the filter admits) `years_ago`
is not a non-negative integer as the claim asserts, and the row is even
weighted −1. -/
theorem timeWeight_future_pickup_negative :
    (c5futureK, (-1 : ℚ)) ∈ weightedRows [c5future] 2025 true ∧
    2025 - pickupYear c5futureK.toRecord < 0 := by
  refine ⟨by rw [c5futureEval]; exact List.mem_singleton.mpr rfl, ?_⟩
  decide

/-- Claim C5, amended: every row of the weighted frame carries weight
`1 / (years_ago + 1)` with `years_ago = current year − pickup year` when
time weighting is on, weight `1` when it is off; `years_ago` is
non-negative only when the pickup year does not exceed the current year
(0 for a pickup in the current year) — the code does not clamp, so a
future-dated pickup yields a negative `years_ago`. -/
theorem weightedRows_time_weight (df : List Record) (y : ℤ) (w : Bool)
    (r : KeyedRecord) (q : ℚ) (h : (r, q) ∈ weightedRows df y w) :
    (w = true → q = 1 / (((y - pickupYear r.toRecord) + 1 : ℤ) : ℚ)) ∧
    (w = false → q = 1) ∧
    (pickupYear r.toRecord ≤ y → 0 ≤ y - pickupYear r.toRecord) := by
  unfold weightedRows at h
  rw [List.mem_map] at h
  obtain ⟨r', _, heq⟩ := h
  injection heq with h1 h2
  subst h1
  subst h2
  refine ⟨?_, ?_, ?_⟩
  · intro hw; subst hw; simp [timeWeight]
  · intro hw; subst hw; simp [timeWeight]
  · intro hle; omega

/-- Evaluation of the weighted frame on the concrete dataset `c5df`. -/
theorem c5eval : weightedRows c5df 2025 true = [(c5row, 1 / 2)] := by
  have h : ("AA1" : String) < "BB2" := by
    rw [String.lt_iff_toList_lt]; decide
  simp only [weightedRows, filteredRows, create_route_key, c5df, c5row, sampleRecord,
    keepRow, timeWeight, pickupYear, routeKeyOf, List.map, List.filter, h, if_true,
    if_pos, Option.isSome, Option.map, Option.getD]
  norm_num
  rfl

/-- Witness for C5: the 2024 pickup in a 2025 query is weighted 1/2. -/
theorem weightedRows_time_weight_witness :
    (true = true → (1 / 2 : ℚ) = 1 / (((2025 - pickupYear c5row.toRecord) + 1 : ℤ) : ℚ)) ∧
    (true = false → (1 / 2 : ℚ) = 1) ∧
    (pickupYear c5row.toRecord ≤ 2025 → 0 ≤ 2025 - pickupYear c5row.toRecord) :=
  weightedRows_time_weight c5df 2025 true c5row (1 / 2)
    (by rw [c5eval]; exact List.mem_singleton.mpr rfl)

/-- Record on the fixed route used to exercise the grouped statistics. -/
def c2rec (p : ℚ) (m : ℕ) : Record :=
  sampleRecord "AA1" "BB2" (some p) (some ⟨2025, m, 1⟩)

/-- Three qualifying rows on one route: prices 10, 10, 40. -/
def c2df : List Record := [c2rec 10 1, c2rec 10 2, c2rec 40 3]

/-- The keyed form of `c2rec` ("AA1" sorts before "BB2"). -/
def c2k (p : ℚ) (m : ℕ) : KeyedRecord :=
  { toRecord := c2rec p m, route_key := "AA1 - BB2" }

theorem c2_filteredRows :
    filteredRows c2df = [c2k 10 1, c2k 10 2, c2k 40 3] := by
  have hAB : ("AA1" : String) < "BB2" := by
    rw [String.lt_iff_toList_lt]; decide
  simp [filteredRows, create_route_key, c2df, c2rec, c2k, sampleRecord, keepRow,
    routeKeyOf, hAB]
  decide

theorem c2_weightedRows :
    weightedRows c2df 2025 false = [(c2k 10 1, 1), (c2k 10 2, 1), (c2k 40 3, 1)] := by
  rw [weightedRows, c2_filteredRows]
  simp [timeWeight]

theorem c2_groups :
    groupsOf [(c2k 10 1, 1), (c2k 10 2, 1), (c2k 40 3, 1)] =
      [⟨"AA1 - BB2", 10, 2, 1⟩, ⟨"AA1 - BB2", 40, 1, 1⟩] := by
  have hd : ([("AA1 - BB2", (10 : ℚ)), ("AA1 - BB2", 10), ("AA1 - BB2", 40)]).dedup
      = [("AA1 - BB2", 10), ("AA1 - BB2", 40)] := by decide
  simp only [groupsOf, groupKey, c2k, c2rec, sampleRecord, List.map]
  norm_num [hd]

/-- The statistics row the code produces on `c2df`. -/
def c2stats : Stats :=
  { volume_time_weighted_avg_cost := 20, avg_cost := 25, median_cost := 25,
    min_cost := 10, max_cost := 40, stddev_cost := some 450, valid_count := 3 }

theorem c2_eval :
    estimate_price_from_df id c2df 2025 false = some c2stats := by
  unfold c2stats
  rw [estimate_price_from_df]
  rw [show c2df.isEmpty = false from rfl]
  simp only [Bool.false_eq_true, if_false, c2_filteredRows, c2_weightedRows, c2_groups]
  norm_num [listMean, listMedian, listMin, listMax, sampleVar, List.mergeSort]

/-- Claim C2, counterexample: on three qualifying rows priced 10, 10, 40 on
one route, the code returns mean 25 (the mean over the two distinct
`(route_key, price)` groups), while the mean across all qualifying rows —
what the claim asserts is computed — is 20. -/
theorem grouped_stats_counterexample :
    (estimate_price_from_df id c2df 2025 false).map Stats.avg_cost = some 25 ∧
    listMean (rowPrices c2df) = 20 ∧ (25 : ℚ) ≠ 20 := by
  refine ⟨by rw [c2_eval]; rfl, ?_, by norm_num⟩
  rw [rowPrices, c2_filteredRows]
  norm_num [listMean, c2k, c2rec, sampleRecord]

theorem foldl_min_le_init {α : Type} [LinearOrder α] (a : α) (l : List α) : l.foldl min a ≤ a := by
  induction l generalizing a with
  | nil => exact le_refl a
  | cons x xs ih => exact le_trans (ih (min a x)) (min_le_left a x)

theorem foldl_min_le_mem {α : Type} [LinearOrder α] (a x : α) (l : List α) (hx : x ∈ l) : l.foldl min a ≤ x := by
  induction l generalizing a with
  | nil => cases hx
  | cons y ys ih =>
    rcases List.mem_cons.mp hx with rfl | h
    · exact le_trans (foldl_min_le_init (min a x) ys) (min_le_right a x)
    · exact ih (min a y) h

theorem foldl_min_mem {α : Type} [LinearOrder α] (a : α) (l : List α) : l.foldl min a ∈ a :: l := by
  induction l generalizing a with
  | nil => simp
  | cons x xs ih =>
    rcases List.mem_cons.mp (ih (min a x)) with h | h
    · rw [List.foldl_cons, h]
      rcases min_choice a x with h' | h' <;> rw [h'] <;> simp
    · rw [List.foldl_cons]
      exact List.mem_cons_of_mem a (List.mem_cons_of_mem x h)

theorem listMin_mem (l : List ℚ) (h : l ≠ []) : listMin l ∈ l := by
  cases l with
  | nil => exact absurd rfl h
  | cons x xs => exact foldl_min_mem x xs

theorem listMin_le (l : List ℚ) (x : ℚ) (hx : x ∈ l) : listMin l ≤ x := by
  cases l with
  | nil => cases hx
  | cons y ys =>
    rcases List.mem_cons.mp hx with rfl | h
    · exact foldl_min_le_init x ys
    · exact foldl_min_le_mem y x ys h

theorem listMin_congr (l₁ l₂ : List ℚ) (h₁ : l₁ ≠ []) (h₂ : l₂ ≠ [])
    (h : ∀ x, x ∈ l₁ ↔ x ∈ l₂) : listMin l₁ = listMin l₂ :=
  le_antisymm (listMin_le l₁ _ ((h _).mpr (listMin_mem l₂ h₂)))
    (listMin_le l₂ _ ((h _).mp (listMin_mem l₁ h₁)))

theorem foldl_max_ge_init {α : Type} [LinearOrder α] (a : α) (l : List α) : a ≤ l.foldl max a := by
  induction l generalizing a with
  | nil => exact le_refl a
  | cons x xs ih => exact le_trans (le_max_left a x) (ih (max a x))

theorem foldl_max_ge_mem {α : Type} [LinearOrder α] (a x : α) (l : List α) (hx : x ∈ l) : x ≤ l.foldl max a := by
  induction l generalizing a with
  | nil => cases hx
  | cons y ys ih =>
    rcases List.mem_cons.mp hx with rfl | h
    · exact le_trans (le_max_right a x) (foldl_max_ge_init (max a x) ys)
    · exact ih (max a y) h

theorem foldl_max_mem {α : Type} [LinearOrder α] (a : α) (l : List α) : l.foldl max a ∈ a :: l := by
  induction l generalizing a with
  | nil => simp
  | cons x xs ih =>
    rcases List.mem_cons.mp (ih (max a x)) with h | h
    · rw [List.foldl_cons, h]
      rcases max_choice a x with h' | h' <;> rw [h'] <;> simp
    · rw [List.foldl_cons]
      exact List.mem_cons_of_mem a (List.mem_cons_of_mem x h)

theorem listMax_mem (l : List ℚ) (h : l ≠ []) : listMax l ∈ l := by
  cases l with
  | nil => exact absurd rfl h
  | cons x xs => exact foldl_max_mem x xs

theorem listMax_ge (l : List ℚ) (x : ℚ) (hx : x ∈ l) : x ≤ listMax l := by
  cases l with
  | nil => cases hx
  | cons y ys =>
    rcases List.mem_cons.mp hx with rfl | h
    · exact foldl_max_ge_init x ys
    · exact foldl_max_ge_mem y x ys h

theorem listMax_congr (l₁ l₂ : List ℚ) (h₁ : l₁ ≠ []) (h₂ : l₂ ≠ [])
    (h : ∀ x, x ∈ l₁ ↔ x ∈ l₂) : listMax l₁ = listMax l₂ :=
  le_antisymm (listMax_ge l₂ _ ((h _).mp (listMax_mem l₁ h₁)))
    (listMax_ge l₁ _ ((h _).mpr (listMax_mem l₂ h₂)))

/-- The size of one `(route_key, carrier_price)` group is the number of
occurrences of its key in the key column. -/
theorem filter_groupKey_length (rows : List (KeyedRecord × ℚ)) (k : String × ℚ) :
    (rows.filter fun rw => decide (groupKey rw.1 = k)).length =
      (rows.map fun rw => groupKey rw.1).count k := by
  induction rows with
  | nil => rfl
  | cons rw rest ih =>
    by_cases h : groupKey rw.1 = k <;>
      simp [List.count_cons, h, ih, List.filter_cons]

theorem sum_map_add_nat {α : Type} (D : List α) (f g : α → ℕ) :
    (D.map fun k => f k + g k).sum = (D.map f).sum + (D.map g).sum := by
  induction D with
  | nil => rfl
  | cons a D ih => simp [ih]; omega

theorem sum_indicator_nodup {α : Type} [DecidableEq α] (a : α) (D : List α)
    (hd : D.Nodup) (ha : a ∈ D) :
    (D.map fun k => if a = k then 1 else 0).sum = 1 := by
  induction D with
  | nil => cases ha
  | cons b D ih =>
    rw [List.map_cons, List.sum_cons]
    rcases List.mem_cons.mp ha with rfl | h
    · rw [if_pos rfl]
      have hz : (D.map fun k => if a = k then 1 else 0).sum = 0 := by
        refine List.sum_eq_zero fun n hn => ?_
        rw [List.mem_map] at hn
        obtain ⟨k, hk, rfl⟩ := hn
        exact if_neg fun (he : a = k) => (List.nodup_cons.mp hd).1 (he ▸ hk)
      rw [hz]
    · have hb : ¬ a = b := fun he => (List.nodup_cons.mp hd).1 (he ▸ h)
      rw [if_neg hb, ih (List.nodup_cons.mp hd).2 h]

/-- Partition identity: summing, over the distinct values of a list, the
number of occurrences of that value recovers the length. -/
theorem sum_filterlen_dedup {α : Type} [DecidableEq α] (L : List α) :
    (L.dedup.map fun k => (L.filter fun x => decide (x = k)).length).sum = L.length := by
  induction L with
  | nil => rfl
  | cons a L ih =>
    have hsplit : ∀ k : α, ((a :: L).filter fun x => decide (x = k)).length
        = (if a = k then 1 else 0) + (L.filter fun x => decide (x = k)).length := by
      intro k
      by_cases h : a = k
      · simp [List.filter_cons, h]; omega
      · simp [List.filter_cons, h]
    by_cases ha : a ∈ L
    · rw [List.dedup_cons_of_mem ha,
        List.map_congr_left fun k _ => hsplit k,
        sum_map_add_nat, ih,
        sum_indicator_nodup a L.dedup (List.nodup_dedup L) (List.mem_dedup.mpr ha),
        List.length_cons]
      omega
    · rw [List.dedup_cons_of_not_mem ha, List.map_cons, List.sum_cons, hsplit a, if_pos rfl]
      have hnil : (L.filter fun x => decide (x = a)).length = 0 := by
        rw [List.length_eq_zero]
        refine List.filter_eq_nil_iff.mpr fun x hx => ?_
        simp only [decide_eq_true_eq]
        intro he; exact ha (he ▸ hx)
      have hrest : (L.dedup.map fun k => ((a :: L).filter fun x => decide (x = k)).length)
          = L.dedup.map fun k => (L.filter fun x => decide (x = k)).length := by
        refine List.map_congr_left fun k hk => ?_
        rw [hsplit k, if_neg fun (he : a = k) => ha (he ▸ List.mem_dedup.mp hk), Nat.zero_add]
      rw [hnil, hrest, ih, List.length_cons]
      omega

/-- Σ volume over the grouped frame is the number of ungrouped rows. -/
theorem sum_volumes (rows : List (KeyedRecord × ℚ)) :
    ((groupsOf rows).map PriceGroup.volume).sum = rows.length := by
  have base := sum_filterlen_dedup (rows.map fun rw => groupKey rw.1)
  rw [List.length_map] at base
  rw [← base]
  unfold groupsOf
  rw [List.map_map]
  refine congrArg List.sum (List.map_congr_left fun k _ => ?_)
  show (rows.filter fun rw => decide (groupKey rw.1 = k)).length
      = ((rows.map fun rw => groupKey rw.1).filter fun x => decide (x = k)).length
  rw [List.filter_map, List.length_map]
  rfl

/-- The grouped price column is the second component of the deduplicated
key column. -/
theorem groupPrices_eq_dedup_snd (df : List Record) (y : ℤ) (w : Bool) :
    groupPrices df y w =
      (((weightedRows df y w).map fun rw => groupKey rw.1).dedup).map Prod.snd := by
  unfold groupPrices groupsOf
  rw [List.map_map]
  rfl

/-- The ungrouped price column is the second component of the key column. -/
theorem rowPrices_eq_keys_snd (df : List Record) (y : ℤ) (w : Bool) :
    ((weightedRows df y w).map fun rw => groupKey rw.1).map Prod.snd = rowPrices df := by
  unfold weightedRows rowPrices groupKey
  rw [List.map_map, List.map_map]
  rfl

/-- Claim C2, amended: mean, median and the (n−1)-divisor standard
deviation are computed over the per-`(route_key, carrier_price)`-group
price values — one value per distinct group, not one per qualifying row —
while `valid_count` = Σ volume equals the number of qualifying rows, and
min and max nonetheless coincide with the row-level min and max. -/
theorem estimate_price_from_df_grouped (fsqrt : ℚ → ℚ) (df : List Record)
    (y : ℤ) (w : Bool) (s : Stats)
    (h : estimate_price_from_df fsqrt df y w = some s) :
    s.avg_cost = listMean (groupPrices df y w) ∧
    s.median_cost = listMedian (groupPrices df y w) ∧
    s.stddev_cost = (if 2 ≤ (groupPrices df y w).length then
        some (fsqrt (sampleVar (groupPrices df y w))) else none) ∧
    s.valid_count = (filteredRows df).length ∧
    s.min_cost = listMin (rowPrices df) ∧
    s.max_cost = listMax (rowPrices df) := by
  simp only [estimate_price_from_df] at h
  by_cases h1 : df.isEmpty = true
  · rw [if_pos h1] at h; exact absurd h (by simp)
  rw [if_neg h1] at h
  by_cases h2 : (filteredRows df).isEmpty = true
  · rw [if_pos h2] at h; exact absurd h (by simp)
  rw [if_neg h2] at h
  have hne : filteredRows df ≠ [] := by
    intro hcon; exact h2 (by rw [hcon]; rfl)
  obtain rfl := Option.some.inj h
  have hK : ((weightedRows df y w).map fun rw => groupKey rw.1) ≠ [] := by
    intro hcon
    rw [List.map_eq_nil_iff] at hcon
    unfold weightedRows at hcon
    rw [List.map_eq_nil_iff] at hcon
    exact hne hcon
  have hgp : groupPrices df y w ≠ [] := by
    rw [groupPrices_eq_dedup_snd]
    intro hcon
    rw [List.map_eq_nil_iff, List.dedup_eq_nil] at hcon
    exact hK hcon
  have hrp : rowPrices df ≠ [] := by
    rw [← rowPrices_eq_keys_snd df y w]
    intro hcon
    rw [List.map_eq_nil_iff] at hcon
    exact hK hcon
  have hmemiff : ∀ x, x ∈ groupPrices df y w ↔ x ∈ rowPrices df := by
    intro x
    rw [groupPrices_eq_dedup_snd, ← rowPrices_eq_keys_snd df y w]
    simp only [List.mem_map, List.mem_dedup]
  refine ⟨rfl, rfl, rfl, ?_, ?_, ?_⟩
  · show ((groupsOf (weightedRows df y w)).map PriceGroup.volume).sum = _
    rw [sum_volumes]
    unfold weightedRows
    rw [List.length_map]
  · exact listMin_congr _ _ hgp hrp hmemiff
  · exact listMax_congr _ _ hgp hrp hmemiff

/-- Witness for the amended C2 at the concrete dataset `c2df`. -/
theorem estimate_price_from_df_grouped_witness :
    c2stats.avg_cost = listMean (groupPrices c2df 2025 false) ∧
    c2stats.median_cost = listMedian (groupPrices c2df 2025 false) ∧
    c2stats.stddev_cost = (if 2 ≤ (groupPrices c2df 2025 false).length then
        some (id (sampleVar (groupPrices c2df 2025 false))) else none) ∧
    c2stats.valid_count = (filteredRows c2df).length ∧
    c2stats.min_cost = listMin (rowPrices c2df) ∧
    c2stats.max_cost = listMax (rowPrices c2df) :=
  estimate_price_from_df_grouped id c2df 2025 false c2stats c2_eval

/-- Claim C1: the tiered fallback evaluates the four tier combinations in
strict order — 3-letter match alone; then ∪ within-10km; then ∪ within-20km;
then ∪ 2-letter match — where each union is a multiset union (rows
concatenated, never deduplicated), and returns the statistics of the first
combination whose `valid_count` meets the minimum-count threshold, annotated
with the explanation naming the winning combination and its sample count;
`none` when no combination qualifies. -/
theorem estimate_price_tiered_fallback (fsqrt : ℚ → ℚ)
    (m3 w10 w20 m2 : List Record) (mc : ℕ) (w : Bool) (y : ℤ) :
    estimate_price fsqrt m3 w10 w20 m2 mc w y =
      firstQualifyingTier fsqrt mc y w
        [(m3, "3-letter prefix"),
         (m3 ++ w10, "3-letter prefix + within 10km"),
         (m3 ++ w10 ++ w20, "3-letter prefix + within 10km + within 20km"),
         (m3 ++ w10 ++ w20 ++ m2,
           "3-letter prefix + within 10km + within 20km + 2-letter prefix")] := by
  simp only [estimate_price, firstQualifyingTier, try_tier, join_dfs, List.flatten,
    List.append_nil, List.append_assoc]
  cases h1 : estimate_price_from_df fsqrt m3 y w <;>
    cases h2 : estimate_price_from_df fsqrt (m3 ++ w10) y w <;>
      cases h3 : estimate_price_from_df fsqrt (m3 ++ (w10 ++ w20)) y w <;>
        cases h4 : estimate_price_from_df fsqrt (m3 ++ (w10 ++ (w20 ++ m2))) y w <;>
          first
          | rfl
          | (simp only []
             split_ifs <;> simp)

/-- A raw shipment row as consumed by `find_similar_routes_by_postcode`:
the `required_cols` plus the nullable coordinate columns. -/
structure GeoRecord where
  origin_postcode : String
  destination_postcode : String
  origin_lat : Option ℚ
  origin_lon : Option ℚ
  dest_lat : Option ℚ
  dest_lon : Option ℚ
  carrier_price : Option ℚ
  vehicle_type : String
  pickup_date : Option Date
  contract_type : String
  shipper_price : Option ℚ
  carrier_name : String
  shipper_id : ℤ
deriving DecidableEq

/-- Polars three-valued (Kleene) conjunction on nullable booleans. -/
def obAnd : Option Bool → Option Bool → Option Bool
  | some false, _ => some false
  | _, some false => some false
  | some true, some true => some true
  | _, _ => none

/-- Polars three-valued (Kleene) disjunction on nullable booleans. -/
def obOr : Option Bool → Option Bool → Option Bool
  | some true, _ => some true
  | _, some true => some true
  | some false, some false => some false
  | _, _ => none

/-- `column <= literal` on a nullable column: null propagates. -/
def obLe (x : Option ℚ) (c : ℚ) : Option Bool :=
  x.map fun v => decide (v ≤ c)

/-- `haversine_expr`, columnwise: null coordinates propagate to a null
distance.  The pointwise trigonometric kernel (radians, sin, cos, asin,
sqrt over floats, times Earth radius 6371) is abstracted as the parameter
`hav` applied to the row coordinates and the fixed target coordinates;
every claim about this function depends only on null propagation and on
threshold monotonicity, never on the kernel's values. -/
def haversine_expr (hav : ℚ → ℚ → ℚ → ℚ → ℚ)
    (lat1 lon1 : Option ℚ) (lat2 lon2 : ℚ) : Option ℚ :=
  match lat1, lon1 with
  | some a, some b => some (hav a b lat2 lon2)
  | _, _ => none

/-- `replace_all(" ", "") . to_uppercase()` (and the Python
`.replace(" ", "").upper()` applied to the target postcodes), modelled on
the character list. -/
def cleanPostcode (s : String) : String :=
  String.mk ((s.data.filter fun c => decide (c ≠ ' ')).map Char.toUpper)

/-- `str.slice(0, n)` / Python `[:n]`: the first `n` characters. -/
def strPfx (s : String) (n : ℕ) : String :=
  String.mk (s.data.take n)

/-- `carrier_price_filter & vehicle_filter`: carrier price non-null and
non-zero, and the vehicle type matches exactly when one was requested
(`pl.lit(True)` otherwise). -/
def combinedFilter (vehicle_type : Option String) (r : GeoRecord) : Option Bool :=
  obAnd
    (obAnd (some r.carrier_price.isSome)
      (r.carrier_price.map fun p => decide (p ≠ 0)))
    (match vehicle_type with
     | some v => some (decide (r.vehicle_type = v))
     | none => some true)

/-- The prefix-tier filter with target prefixes `oPfx`/`dPfx` of length
`n` (3 or 2): forward or swapped equality of the cleaned postcode
prefixes, under the base filter. -/
def prefixTierPred (oPfx dPfx : String) (n : ℕ) (vehicle_type : Option String)
    (r : GeoRecord) : Option Bool :=
  obAnd (combinedFilter vehicle_type r)
    (obOr
      (obAnd (some (decide (strPfx (cleanPostcode r.origin_postcode) n = oPfx)))
             (some (decide (strPfx (cleanPostcode r.destination_postcode) n = dPfx))))
      (obAnd (some (decide (strPfx (cleanPostcode r.origin_postcode) n = dPfx)))
             (some (decide (strPfx (cleanPostcode r.destination_postcode) n = oPfx)))))

/-- The distance-tier filter at threshold `radius` (10 or 20 km):
(forward-origin ≤ r ∧ forward-dest ≤ r) ∨ (reverse-origin ≤ r ∧
reverse-dest ≤ r), under the base filter. -/
def distTierPred (hav : ℚ → ℚ → ℚ → ℚ → ℚ)
    (tOLat tOLon tDLat tDLon radius : ℚ) (vehicle_type : Option String)
    (r : GeoRecord) : Option Bool :=
  obAnd (combinedFilter vehicle_type r)
    (obOr
      (obAnd (obLe (haversine_expr hav r.origin_lat r.origin_lon tOLat tOLon) radius)
             (obLe (haversine_expr hav r.dest_lat r.dest_lon tDLat tDLon) radius))
      (obAnd (obLe (haversine_expr hav r.origin_lat r.origin_lon tDLat tDLon) radius)
             (obLe (haversine_expr hav r.dest_lat r.dest_lon tOLat tOLon) radius)))

/-- `df.filter(pred)`: polars keeps exactly the rows whose predicate is
true (null counts as not kept). -/
def keptBy (p : GeoRecord → Option Bool) (df : List GeoRecord) : List GeoRecord :=
  df.filter fun r => decide (p r = some true)

/-- `select(required_cols)`: project a raw row to the estimator columns. -/
def selectRequired (r : GeoRecord) : Record :=
  { origin_postcode := r.origin_postcode, destination_postcode := r.destination_postcode,
    carrier_price := r.carrier_price, vehicle_type := r.vehicle_type,
    pickup_date := r.pickup_date, contract_type := r.contract_type,
    shipper_price := r.shipper_price, carrier_name := r.carrier_name,
    shipper_id := r.shipper_id }

/-- `find_similar_routes_by_postcode`, with the resolved target
coordinates passed in (the geocoding lookup is an external collaborator)
and the haversine kernel abstracted as `hav`.  Returns
(3-letter matches, within-10km, within-20km, 2-letter matches). -/
def find_similar_routes_by_postcode (hav : ℚ → ℚ → ℚ → ℚ → ℚ)
    (df : List GeoRecord) (origin_postcode dest_postcode : String)
    (tOLat tOLon tDLat tDLon : ℚ) (vehicle_type : Option String) :
    List Record × List Record × List Record × List Record :=
  let originClean := cleanPostcode origin_postcode
  let destClean := cleanPostcode dest_postcode
  ((keptBy (prefixTierPred (strPfx originClean 3) (strPfx destClean 3) 3 vehicle_type) df).map
      selectRequired,
   (keptBy (distTierPred hav tOLat tOLon tDLat tDLon 10 vehicle_type) df).map selectRequired,
   (keptBy (distTierPred hav tOLat tOLon tDLat tDLon 20 vehicle_type) df).map selectRequired,
   (keptBy (prefixTierPred (strPfx originClean 2) (strPfx destClean 2) 2 vehicle_type) df).map
      selectRequired)

theorem obAnd_eq_some_true :
    ∀ x y : Option Bool, obAnd x y = some true ↔ x = some true ∧ y = some true := by
  decide

theorem obOr_eq_some_true :
    ∀ x y : Option Bool, obOr x y = some true ↔ x = some true ∨ y = some true := by
  decide

theorem obLe_mono (x : Option ℚ) (c c' : ℚ) (hcc : c ≤ c')
    (h : obLe x c = some true) : obLe x c' = some true := by
  cases x with
  | none => simp [obLe] at h
  | some v =>
    simp [obLe] at h ⊢
    exact le_trans h hcc

/-- Claim C6: any record satisfying the within-10km tier predicate (under
the base filter) also satisfies the within-20km tier predicate — by
monotonicity of the threshold comparison, for every haversine kernel and
every pair of target coordinates. -/
theorem distTier10_implies_distTier20 (hav : ℚ → ℚ → ℚ → ℚ → ℚ)
    (tOLat tOLon tDLat tDLon : ℚ) (vt : Option String) (r : GeoRecord)
    (h : distTierPred hav tOLat tOLon tDLat tDLon 10 vt r = some true) :
    distTierPred hav tOLat tOLon tDLat tDLon 20 vt r = some true := by
  obtain ⟨hbase, hdist⟩ := (obAnd_eq_some_true _ _).mp h
  refine (obAnd_eq_some_true _ _).mpr ⟨hbase, ?_⟩
  have h1020 : (10 : ℚ) ≤ 20 := by norm_num
  rcases (obOr_eq_some_true _ _).mp hdist with hd | hd <;>
    obtain ⟨hA, hB⟩ := (obAnd_eq_some_true _ _).mp hd
  · exact (obOr_eq_some_true _ _).mpr (Or.inl ((obAnd_eq_some_true _ _).mpr
      ⟨obLe_mono _ _ _ h1020 hA, obLe_mono _ _ _ h1020 hB⟩))
  · exact (obOr_eq_some_true _ _).mpr (Or.inr ((obAnd_eq_some_true _ _).mpr
      ⟨obLe_mono _ _ _ h1020 hA, obLe_mono _ _ _ h1020 hB⟩))

/-- A haversine kernel for witnesses: every distance is 0. -/
def hav0 : ℚ → ℚ → ℚ → ℚ → ℚ := fun _ _ _ _ => 0

/-- A fully-coordinated record for the C6 witness. -/
def c6rec : GeoRecord :=
  { origin_postcode := "AB1 2CD", destination_postcode := "EF3 4GH",
    origin_lat := some 1, origin_lon := some 1, dest_lat := some 2, dest_lon := some 2,
    carrier_price := some 100, vehicle_type := "Van", pickup_date := some ⟨2025, 1, 1⟩,
    contract_type := "spot", shipper_price := none, carrier_name := "acme", shipper_id := 1 }

/-- Witness for C6 at a concrete record and kernel. -/
theorem distTier10_implies_distTier20_witness :
    distTierPred hav0 0 0 0 0 20 none c6rec = some true :=
  distTier10_implies_distTier20 hav0 0 0 0 0 none c6rec (by decide)

theorem haversine_expr_none (hav : ℚ → ℚ → ℚ → ℚ → ℚ)
    (lat1 lon1 : Option ℚ) (t1 t2 : ℚ) (h : lat1 = none ∨ lon1 = none) :
    haversine_expr hav lat1 lon1 t1 t2 = none := by
  rcases h with rfl | rfl
  · rfl
  · cases lat1 <;> rfl

/-- Claim C10: a record with a null origin or destination coordinate can
never satisfy a distance-tier predicate (its distances are null, and a
null comparison is never true), at any threshold — in particular it is
excluded from both the within-10km and within-20km tiers. -/
theorem nullCoord_excluded_from_distance_tiers (hav : ℚ → ℚ → ℚ → ℚ → ℚ)
    (tOLat tOLon tDLat tDLon radius : ℚ) (vt : Option String) (r : GeoRecord)
    (h : r.origin_lat = none ∨ r.origin_lon = none ∨
         r.dest_lat = none ∨ r.dest_lon = none) :
    distTierPred hav tOLat tOLon tDLat tDLon radius vt r ≠ some true := by
  intro hcon
  obtain ⟨-, hwithin⟩ := (obAnd_eq_some_true _ _).mp hcon
  rcases (obOr_eq_some_true _ _).mp hwithin with hd | hd <;>
    obtain ⟨hA, hB⟩ := (obAnd_eq_some_true _ _).mp hd <;>
    rcases h with h | h | h | h <;>
    first
    | (rw [haversine_expr_none hav r.origin_lat r.origin_lon _ _ (Or.inl h)] at hA
       simp [obLe] at hA)
    | (rw [haversine_expr_none hav r.origin_lat r.origin_lon _ _ (Or.inr h)] at hA
       simp [obLe] at hA)
    | (rw [haversine_expr_none hav r.dest_lat r.dest_lon _ _ (Or.inl h)] at hB
       simp [obLe] at hB)
    | (rw [haversine_expr_none hav r.dest_lat r.dest_lon _ _ (Or.inr h)] at hB
       simp [obLe] at hB)

/-- A record with a null origin latitude but matching postcode prefixes. -/
def c10rec : GeoRecord :=
  { origin_postcode := "AB1 2CD", destination_postcode := "EF3 4GH",
    origin_lat := none, origin_lon := some 1, dest_lat := some 2, dest_lon := some 3,
    carrier_price := some 100, vehicle_type := "Van", pickup_date := some ⟨2025, 1, 1⟩,
    contract_type := "spot", shipper_price := none, carrier_name := "acme", shipper_id := 1 }

/-- Witness for C10: the null-latitude record `c10rec` is excluded from
the 10 km tier, yet still appears in the 3-letter prefix tier of
`find_similar_routes_by_postcode` (its postcodes match the query
"ab12cd" → "ef34gh" after cleaning). -/
theorem nullCoord_excluded_from_distance_tiers_witness :
    distTierPred hav0 0 0 0 0 10 none c10rec ≠ some true ∧
    selectRequired c10rec ∈
      (find_similar_routes_by_postcode hav0 [c10rec] "ab12cd" "ef34gh" 0 0 0 0 none).1 :=
  ⟨nullCoord_excluded_from_distance_tiers hav0 0 0 0 0 10 none c10rec (Or.inl rfl),
   by decide⟩

/-- An input row of `identify_optimal_price` (a pandas frame with
`carrier_price`, `route_key` and `vehicle_type` columns). -/
structure HRow where
  carrier_price : Option ℚ
  route_key : String
  vehicle_type : String
deriving DecidableEq

/-- `np.percentile(xs, q)` with the default linear interpolation: on the
sorted values, position `q·(n−1)/100`, interpolating between the two
neighbouring order statistics. -/
def percentile (xs : List ℚ) (q : ℚ) : ℚ :=
  let s := xs.mergeSort fun a b => decide (a ≤ b)
  let pos := q * ((xs.length : ℚ) - 1) / 100
  s.getD (⌊pos⌋).toNat 0 + (pos - ⌊pos⌋) * (s.getD (⌈pos⌉).toNat 0 - s.getD (⌊pos⌋).toNat 0)

/-- `scipy.stats.iqr`: 75th minus 25th percentile. -/
def iqr (xs : List ℚ) : ℚ := percentile xs 75 - percentile xs 25

/-- `np.linspace(lo, hi, n)`: `n` evenly spaced points from `lo` to `hi`
inclusive. -/
def linspace (lo hi : ℚ) (n : ℕ) : List ℚ :=
  (List.range n).map fun i : ℕ => lo + (i : ℚ) * (hi - lo) / ((n : ℚ) - 1)

/-- The plateau scan inside scipy `_local_maxima_1d`: starting at `j`,
skip samples equal to `v` until the index `iMax` or an unequal sample.
The fuel argument makes the recursion structural; it is always called
with fuel ≥ iMax − j, so the fuel never runs out on the scipy path. -/
def plateauEnd (x : List ℚ) (v : ℚ) (iMax : ℕ) : ℕ → ℕ → ℕ
  | 0, j => j
  | fuel + 1, j =>
    if j < iMax ∧ x.getD j 0 = v then plateauEnd x v iMax fuel (j + 1) else j

/-- The main loop of scipy `find_peaks` with no extra arguments
(`_local_maxima_1d`): scan `i` from 1 to `iMax − 1`; when the previous
sample is smaller and the next unequal sample (plateau scan) is smaller,
record the plateau midpoint `(left + right) / 2` and resume after the
plateau.  Each step advances `i` by at least one and consumes one unit of
fuel, so fuel = list length suffices to reproduce the scipy loop. -/
def findPeaksGo (x : List ℚ) (iMax : ℕ) : ℕ → ℕ → List ℕ
  | 0, _ => []
  | fuel + 1, i =>
    if i < iMax then
      if x.getD (i - 1) 0 < x.getD i 0 then
        let iAhead := plateauEnd x (x.getD i 0) iMax iMax (i + 1)
        if x.getD iAhead 0 < x.getD i 0 then
          ((i + (iAhead - 1)) / 2) :: findPeaksGo x iMax fuel (iAhead + 1)
        else findPeaksGo x iMax fuel (i + 1)
      else findPeaksGo x iMax fuel (i + 1)
    else []

/-- `scipy.signal.find_peaks(x)[0]`: indices of the local maxima of `x`,
in increasing order (first and last sample can never qualify). -/
def find_peaks (x : List ℚ) : List ℕ :=
  findPeaksGo x (x.length - 1) x.length 1

/-- The Python float floor-division bucket `(p // bw) * bw`. -/
def costGroup (bw : ℚ) (p : ℚ) : ℚ := ((⌊p / bw⌋ : ℤ) : ℚ) * bw

/-- The occurrence count of `b` in the bucket column. -/
def countOf (groups : List ℚ) (b : ℚ) : ℕ :=
  (groups.filter fun x => decide (x = b)).length

/-- The fallback `value_counts().sort_index().idxmax()` of the bucket
column: among the distinct buckets in ascending order, the first one
attaining the maximal occurrence count (`value_counts` drops the null
prices, so the buckets come from the non-null costs). -/
def binnedMode (costs : List ℚ) (bw : ℚ) : Option ℚ :=
  let groups := costs.map (costGroup bw)
  let bins := groups.dedup.mergeSort fun a b => decide (a ≤ b)
  let maxCount := (bins.map fun b => countOf groups b).foldl max 0
  bins.find? fun b => decide (countOf groups b = maxCount)

/-- The non-null cost observations surviving the optional `route_key` and
`vehicle_type` filters (a Python falsy empty-string argument also skips
its filter). -/
def hCosts (df : List HRow) (route_key vehicle_type : Option String) : List ℚ :=
  let df1 := match route_key with
    | some rk => if rk = "" then df else df.filter fun r => decide (r.route_key = rk)
    | none => df
  let df2 := match vehicle_type with
    | some v => if v = "" then df1 else df1.filter fun r => decide (r.vehicle_type = v)
    | none => df1
  df2.filterMap fun r => r.carrier_price

/-- `spread = cost_iqr if cost_iqr > 0 else cost_std`, with
`cost_std = np.std(costs)` modelled as `fsqrt` of the population
variance (IEEE sqrt is a float function of the exact variance). -/
def spreadOf (fsqrt : ℚ → ℚ) (costs : List ℚ) : ℚ :=
  if iqr costs > 0 then iqr costs else fsqrt (varPop costs)

/-- The density curve: `gaussian_kde(costs, bw_method)` — abstracted as
the parameter `kde` — evaluated on the 1000-point grid spanning
[min cost, max cost]. -/
def densityOf (kde : List ℚ → ℚ → ℚ → ℚ) (costs : List ℚ) (bw_method : ℚ) : List ℚ :=
  (linspace (listMin costs) (listMax costs) 1000).map (kde costs bw_method)

/-- `density_threshold = 0.1 * len(costs) / (cost_range.max() -
cost_range.min())` (the grid endpoints are exactly the cost extremes). -/
def thresholdOf (costs : List ℚ) : ℚ :=
  (1 / 10) * (costs.length : ℚ) / (listMax costs - listMin costs)

/-- The density curve of the query: `gaussian_kde(costs, bw_method)` on
the evaluation grid, with `bw_method = target_bandwidth / spread`. -/
def hDensity (fsqrt : ℚ → ℚ) (kde : List ℚ → ℚ → ℚ → ℚ)
    (df : List HRow) (route_key vehicle_type : Option String)
    (target_bandwidth : ℚ) : List ℚ :=
  densityOf kde (hCosts df route_key vehicle_type)
    (target_bandwidth / spreadOf fsqrt (hCosts df route_key vehicle_type))

/-- The evaluation grid `cost_range = np.linspace(min, max, 1000)`. -/
def hGrid (df : List HRow) (route_key vehicle_type : Option String) : List ℚ :=
  linspace (listMin (hCosts df route_key vehicle_type))
    (listMax (hCosts df route_key vehicle_type)) 1000

/-- The peak indices `find_peaks(density)[0]` of the query. -/
def hPeaks (fsqrt : ℚ → ℚ) (kde : List ℚ → ℚ → ℚ → ℚ)
    (df : List HRow) (route_key vehicle_type : Option String)
    (target_bandwidth : ℚ) : List ℕ :=
  find_peaks (hDensity fsqrt kde df route_key vehicle_type target_bandwidth)

/-- `identify_optimal_price`: KDE peak detection with binned-mode
fallback.  `fsqrt` abstracts the float square root inside `np.std`;
`kde` abstracts `scipy.stats.gaussian_kde(costs, bw_method)` evaluated at
a grid point.  All filtering, the spread test, the evaluation grid, peak
detection, the threshold comparison and the fallback are translated
directly, stage by stage, through the definitions above. -/
def identify_optimal_price (fsqrt : ℚ → ℚ) (kde : List ℚ → ℚ → ℚ → ℚ)
    (df : List HRow) (route_key vehicle_type : Option String)
    (target_bandwidth : ℚ) : Option ℚ :=
  if (hCosts df route_key vehicle_type).length < 5 then none
  else if spreadOf fsqrt (hCosts df route_key vehicle_type) = 0 then none
  else
    match (hPeaks fsqrt kde df route_key vehicle_type target_bandwidth).find? fun idx =>
        decide (thresholdOf (hCosts df route_key vehicle_type) ≤
          (hDensity fsqrt kde df route_key vehicle_type target_bandwidth).getD idx 0) with
    | some idx => some ((hGrid df route_key vehicle_type).getD idx 0)
    | none => binnedMode (hCosts df route_key vehicle_type) target_bandwidth

theorem sum_const (l : List ℚ) (c : ℚ) (h : ∀ x ∈ l, x = c) :
    l.sum = c * l.length := by
  induction l with
  | nil => simp
  | cons a l ih =>
    rw [List.sum_cons, ih fun x hx => h x (List.mem_cons_of_mem a hx),
      h a (List.mem_cons_self a l), List.length_cons]
    push_cast
    ring

theorem listMean_const (l : List ℚ) (c : ℚ) (h : ∀ x ∈ l, x = c) (hne : l ≠ []) :
    listMean l = c := by
  have hlen : (l.length : ℚ) ≠ 0 := by
    have := List.length_pos.mpr hne
    positivity
  rw [listMean, sum_const l c h, mul_div_assoc, div_self hlen, mul_one]

theorem varPop_const (l : List ℚ) (c : ℚ) (h : ∀ x ∈ l, x = c) :
    varPop l = 0 := by
  cases hl : l with
  | nil => simp [varPop, listMean]
  | cons a t =>
    rw [← hl]
    have hne : l ≠ [] := by rw [hl]; exact List.cons_ne_nil a t
    unfold varPop
    rw [show (l.map fun x => (x - listMean l) ^ 2).sum = 0 from ?_, zero_div]
    refine List.sum_eq_zero fun y hy => ?_
    rw [List.mem_map] at hy
    obtain ⟨x, hx, rfl⟩ := hy
    rw [h x hx, listMean_const l c h hne, sub_self]
    ring

theorem getD_all_eq (l : List ℚ) (c : ℚ) (i : ℕ) (h : ∀ x ∈ l, x = c)
    (hi : i < l.length) : l.getD i 0 = c := by
  rw [List.getD_eq_getElem l 0 hi]
  exact h _ (List.getElem_mem hi)

theorem percentile_const (xs : List ℚ) (c q : ℚ) (h : ∀ x ∈ xs, x = c)
    (hne : xs ≠ []) (hq0 : 0 ≤ q) (hq1 : q ≤ 100) : percentile xs q = c := by
  have hn1 : 1 ≤ xs.length := List.length_pos.mpr hne
  have hsmem : ∀ x ∈ xs.mergeSort fun a b => decide (a ≤ b), x = c := fun x hx =>
    h x (List.mem_mergeSort.mp hx)
  have hslen : (xs.mergeSort fun a b => decide (a ≤ b)).length = xs.length :=
    List.length_mergeSort xs
  set pos := q * ((xs.length : ℚ) - 1) / 100 with hpos
  have hn0 : (0 : ℚ) ≤ (xs.length : ℚ) - 1 := by
    have : (1 : ℚ) ≤ (xs.length : ℚ) := by exact_mod_cast hn1
    linarith
  have hpos0 : 0 ≤ pos := by rw [hpos]; positivity
  have hposle : pos ≤ (xs.length : ℚ) - 1 := by
    rw [hpos, div_le_iff₀ (by norm_num : (0:ℚ) < 100)]
    nlinarith
  have hcast : ((xs.length : ℚ) - 1) = (((xs.length : ℤ) - 1 : ℤ) : ℚ) := by push_cast; ring
  have hfl : ⌊pos⌋ ≤ (xs.length : ℤ) - 1 := by
    have := Int.floor_le_floor (α := ℚ) hposle
    rwa [hcast, Int.floor_intCast] at this
  have hcl : ⌈pos⌉ ≤ (xs.length : ℤ) - 1 := by
    have := Int.ceil_le_ceil (α := ℚ) hposle
    rwa [hcast, Int.ceil_intCast] at this
  have hflnat : (⌊pos⌋).toNat < xs.length := by omega
  have hclnat : (⌈pos⌉).toNat < xs.length := by omega
  simp only [percentile]
  rw [getD_all_eq _ c _ hsmem (by rw [hslen]; exact hflnat),
    getD_all_eq _ c _ hsmem (by rw [hslen]; exact hclnat)]
  ring

theorem iqr_const (xs : List ℚ) (c : ℚ) (h : ∀ x ∈ xs, x = c) (hne : xs ≠ []) :
    iqr xs = 0 := by
  rw [iqr, percentile_const xs c 75 h hne (by norm_num) (by norm_num),
    percentile_const xs c 25 h hne (by norm_num) (by norm_num), sub_self]

/-- Claim C4: `identify_optimal_price` returns `none` when fewer than five
non-null cost observations survive the filters, and also when all
surviving observations are identical (interquartile range and standard
deviation both zero); both outcomes are values, never exceptions
(the model is a total function). -/
theorem identify_optimal_price_no_estimate (fsqrt : ℚ → ℚ)
    (kde : List ℚ → ℚ → ℚ → ℚ) (df : List HRow) (rk vt : Option String) (bw : ℚ)
    (hfs : fsqrt 0 = 0)
    (h : (hCosts df rk vt).length < 5 ∨
         ∀ a ∈ hCosts df rk vt, ∀ b ∈ hCosts df rk vt, a = b) :
    identify_optimal_price fsqrt kde df rk vt bw = none := by
  unfold identify_optimal_price
  by_cases h5 : (hCosts df rk vt).length < 5
  · rw [if_pos h5]
  rw [if_neg h5]
  rcases h with h | h
  · exact absurd h h5
  have hne : hCosts df rk vt ≠ [] := by
    intro hc
    rw [hc] at h5
    exact h5 (by norm_num)
  obtain ⟨c, hc⟩ : ∃ c, ∀ x ∈ hCosts df rk vt, x = c := by
    obtain ⟨a, t, hl⟩ := List.exists_cons_of_ne_nil hne
    exact ⟨a, fun x hx => h x hx a (by rw [hl]; exact List.mem_cons_self a t)⟩
  have hspread : spreadOf fsqrt (hCosts df rk vt) = 0 := by
    unfold spreadOf
    rw [iqr_const _ c hc hne, if_neg (lt_irrefl 0), varPop_const _ c hc, hfs]
  rw [if_pos hspread]

/-- Five identical observations for the C4 witness. -/
def c4df : List HRow :=
  [⟨some 10, "K", "Van"⟩, ⟨some 10, "K", "Van"⟩, ⟨some 10, "K", "Van"⟩,
   ⟨some 10, "K", "Van"⟩, ⟨some 10, "K", "Van"⟩]

/-- Witness for C4: five identical prices give "no estimate". -/
theorem identify_optimal_price_no_estimate_witness :
    identify_optimal_price id (fun _ _ _ => 0) c4df none none 5 = none :=
  identify_optimal_price_no_estimate id (fun _ _ _ => 0) c4df none none 5 rfl
    (Or.inr (by decide))

theorem plateauEnd_ge (x : List ℚ) (v : ℚ) (iMax : ℕ) :
    ∀ fuel j, j ≤ plateauEnd x v iMax fuel j := by
  intro fuel
  induction fuel with
  | zero => intro j; exact le_refl j
  | succ fuel ih =>
    intro j
    simp only [plateauEnd]
    split
    · exact le_trans (Nat.le_succ j) (ih (j + 1))
    · exact le_refl j

theorem plateauEnd_le (x : List ℚ) (v : ℚ) (iMax : ℕ) :
    ∀ fuel j, j ≤ iMax → plateauEnd x v iMax fuel j ≤ iMax := by
  intro fuel
  induction fuel with
  | zero => intro j hj; exact hj
  | succ fuel ih =>
    intro j hj
    simp only [plateauEnd]
    split
    · next h => exact ih (j + 1) h.1
    · exact hj

theorem findPeaksGo_mem_bounds (x : List ℚ) (iMax : ℕ) :
    ∀ fuel i p, p ∈ findPeaksGo x iMax fuel i → i ≤ p ∧ p + 1 ≤ iMax := by
  intro fuel
  induction fuel with
  | zero => intro i p hp; simp [findPeaksGo] at hp
  | succ fuel ih =>
    intro i p hp
    simp only [findPeaksGo] at hp
    by_cases h1 : i < iMax
    swap
    · rw [if_neg h1] at hp; simp at hp
    rw [if_pos h1] at hp
    by_cases h2 : x.getD (i - 1) 0 < x.getD i 0
    swap
    · rw [if_neg h2] at hp
      obtain ⟨ha, hb⟩ := ih (i + 1) p hp
      omega
    rw [if_pos h2] at hp
    have hge : i + 1 ≤ plateauEnd x (x.getD i 0) iMax iMax (i + 1) :=
      plateauEnd_ge x (x.getD i 0) iMax iMax (i + 1)
    have hle : plateauEnd x (x.getD i 0) iMax iMax (i + 1) ≤ iMax :=
      plateauEnd_le x (x.getD i 0) iMax iMax (i + 1) h1
    by_cases h3 : x.getD (plateauEnd x (x.getD i 0) iMax iMax (i + 1)) 0 < x.getD i 0
    swap
    · rw [if_neg h3] at hp
      obtain ⟨ha, hb⟩ := ih (i + 1) p hp
      omega
    rw [if_pos h3] at hp
    rcases List.mem_cons.mp hp with rfl | hp'
    · constructor
      · have h2i : i * 2 ≤ i + (plateauEnd x (x.getD i 0) iMax iMax (i + 1) - 1) := by omega
        exact (Nat.le_div_iff_mul_le (by norm_num)).mpr h2i
      · have hdiv : (i + (plateauEnd x (x.getD i 0) iMax iMax (i + 1) - 1)) / 2
            ≤ plateauEnd x (x.getD i 0) iMax iMax (i + 1) - 1 := by
          refine Nat.div_le_of_le_mul ?_
          omega
        omega
    · obtain ⟨ha, hb⟩ := ih (plateauEnd x (x.getD i 0) iMax iMax (i + 1) + 1) p hp'
      omega

theorem findPeaksGo_sorted (x : List ℚ) (iMax : ℕ) :
    ∀ fuel i, (findPeaksGo x iMax fuel i).Pairwise (· < ·) := by
  intro fuel
  induction fuel with
  | zero => intro i; simp [findPeaksGo]
  | succ fuel ih =>
    intro i
    simp only [findPeaksGo]
    split
    swap
    · exact List.Pairwise.nil
    split
    swap
    · exact ih (i + 1)
    split
    swap
    · exact ih (i + 1)
    next h1 h2 h3 =>
      refine List.pairwise_cons.mpr ⟨fun q hq => ?_, ih _⟩
      obtain ⟨hq1, hq2⟩ := findPeaksGo_mem_bounds x iMax fuel _ q hq
      have hge : i + 1 ≤ plateauEnd x (x.getD i 0) iMax iMax (i + 1) :=
        plateauEnd_ge x (x.getD i 0) iMax iMax (i + 1)
      have hdiv : (i + (plateauEnd x (x.getD i 0) iMax iMax (i + 1) - 1)) / 2
          ≤ plateauEnd x (x.getD i 0) iMax iMax (i + 1) - 1 := by
        refine Nat.div_le_of_le_mul ?_
        omega
      omega

theorem find?_first {α : Type} (R : α → α → Prop) (hrefl : ∀ a, R a a) :
    ∀ (l : List α), l.Pairwise R → ∀ (p : α → Bool) (a : α), l.find? p = some a →
      ∀ b ∈ l, p b = true → R a b := by
  intro l
  induction l with
  | nil => intro _ p a h; simp at h
  | cons x xs ih =>
    intro hpw p a hf b hb hpb
    cases hx : p x with
    | false =>
      rw [List.find?_cons_of_neg _ (by simp [hx])] at hf
      rcases List.mem_cons.mp hb with rfl | hb'
      · rw [hx] at hpb; cases hpb
      · exact ih (List.pairwise_cons.mp hpw).2 p a hf b hb' hpb
    | true =>
      rw [List.find?_cons_of_pos _ (by simp [hx])] at hf
      obtain rfl := Option.some.inj hf
      rcases List.mem_cons.mp hb with rfl | hb'
      · exact hrefl b
      · exact (List.pairwise_cons.mp hpw).1 b hb'

theorem linspace_getD (lo hi : ℚ) (n i : ℕ) (hin : i < n) :
    (linspace lo hi n).getD i 0 = lo + i * (hi - lo) / ((n : ℚ) - 1) := by
  unfold linspace
  rw [List.getD_eq_getElem _ _ (by simpa using hin)]
  rw [List.getElem_map, List.getElem_range]

theorem linspace_getD_mono (lo hi : ℚ) (h : lo < hi) (n i j : ℕ)
    (hn : 2 ≤ n) (hij : i ≤ j) (hj : j < n) :
    (linspace lo hi n).getD i 0 ≤ (linspace lo hi n).getD j 0 := by
  rw [linspace_getD lo hi n i (lt_of_le_of_lt hij hj), linspace_getD lo hi n j hj]
  have hcast : (i : ℚ) ≤ (j : ℚ) := by exact_mod_cast hij
  have hd : (0 : ℚ) ≤ hi - lo := by linarith
  have hn1 : (0 : ℚ) < (n : ℚ) - 1 := by
    have : (2 : ℚ) ≤ (n : ℚ) := by exact_mod_cast hn
    linarith
  have hmul : (i : ℚ) * (hi - lo) ≤ (j : ℚ) * (hi - lo) :=
    mul_le_mul_of_nonneg_right hcast hd
  exact add_le_add_left ((div_le_div_iff_of_pos_right hn1).mpr hmul) lo

theorem countOf_pos (groups : List ℚ) (b : ℚ) (hb : b ∈ groups) :
    1 ≤ countOf groups b := by
  have hmem : b ∈ groups.filter fun x => decide (x = b) :=
    List.mem_filter.mpr ⟨hb, by simp⟩
  have := List.length_pos.mpr (List.ne_nil_of_mem hmem)
  simpa [countOf] using this

/-- The fallback returns the left edge of the most populous bucket, ties
broken by the smallest bucket value (sorted index, first argmax). -/
theorem binnedMode_spec (costs : List ℚ) (bw : ℚ) (hne : costs ≠ []) :
    ∃ b, binnedMode costs bw = some b ∧ b ∈ costs.map (costGroup bw) ∧
      (∀ b' ∈ costs.map (costGroup bw),
        countOf (costs.map (costGroup bw)) b' ≤ countOf (costs.map (costGroup bw)) b) ∧
      ∀ b' ∈ costs.map (costGroup bw),
        countOf (costs.map (costGroup bw)) b' = countOf (costs.map (costGroup bw)) b →
          b ≤ b' := by
  set groups := costs.map (costGroup bw) with hg
  set bins := groups.dedup.mergeSort (fun a b => decide (a ≤ b)) with hbins
  set maxCount := (bins.map fun b => countOf groups b).foldl max 0 with hmax
  have hmemiff : ∀ b, b ∈ bins ↔ b ∈ groups := by
    intro b
    rw [hbins, List.mem_mergeSort, List.mem_dedup]
  have hgne : groups ≠ [] := fun hc => hne (List.map_eq_nil_iff.mp hc)
  obtain ⟨g0, t0, hg0⟩ := List.exists_cons_of_ne_nil hgne
  have hbne : bins ≠ [] := by
    intro hc
    have hmem : g0 ∈ bins := (hmemiff g0).mpr (by rw [hg0]; exact List.mem_cons_self _ _)
    rw [hc] at hmem
    cases hmem
  have hattain : ∃ b ∈ bins, countOf groups b = maxCount := by
    have hmem := foldl_max_mem 0 (bins.map fun b => countOf groups b)
    rw [← hmax] at hmem
    rcases List.mem_cons.mp hmem with h0 | h0
    · exfalso
      obtain ⟨b0, t1, hb0⟩ := List.exists_cons_of_ne_nil hbne
      have hb0mem : b0 ∈ bins := by rw [hb0]; exact List.mem_cons_self _ _
      have h1 : countOf groups b0 ≤ maxCount := by
        rw [hmax]
        exact foldl_max_ge_mem 0 _ _ (List.mem_map_of_mem _ hb0mem)
      have h2 : 1 ≤ countOf groups b0 := countOf_pos groups b0 ((hmemiff b0).mp hb0mem)
      omega
    · rw [List.mem_map] at h0
      obtain ⟨b, hb, hbeq⟩ := h0
      exact ⟨b, hb, hbeq⟩
  obtain ⟨b0, hb0, hb0eq⟩ := hattain
  have hissome : (bins.find? fun b => decide (countOf groups b = maxCount)).isSome :=
    List.find?_isSome.mpr ⟨b0, hb0, decide_eq_true hb0eq⟩
  obtain ⟨b, hbfind⟩ := Option.isSome_iff_exists.mp hissome
  have hbmem : b ∈ bins := List.mem_of_find?_eq_some hbfind
  have hbcnt : countOf groups b = maxCount :=
    of_decide_eq_true (by have h := List.find?_some hbfind; exact h)
  have hBM : binnedMode costs bw = bins.find? fun b => decide (countOf groups b = maxCount) :=
    rfl
  have hsorted : bins.Pairwise (· ≤ ·) := by
    have hs := @List.sorted_mergeSort ℚ (fun a b => decide (a ≤ b))
      (fun a b c hab hbc => by
        simp only [decide_eq_true_eq] at hab hbc ⊢
        exact le_trans hab hbc)
      (fun a b => by rcases le_total a b with h | h <;> simp [h])
      groups.dedup
    exact hs.imp fun h => by simpa using h
  refine ⟨b, by rw [hBM, hbfind], (hmemiff b).mp hbmem, ?_, ?_⟩
  · intro b' hb'
    rw [hbcnt, hmax]
    exact foldl_max_ge_mem 0 _ _ (List.mem_map_of_mem _ ((hmemiff b').mpr hb'))
  · intro b' hb' hcnt
    exact find?_first (· ≤ ·) le_refl bins hsorted _ b hbfind b' ((hmemiff b').mpr hb')
      (decide_eq_true (hcnt.trans hbcnt))

theorem hDensity_length (fsqrt : ℚ → ℚ) (kde : List ℚ → ℚ → ℚ → ℚ)
    (df : List HRow) (rk vt : Option String) (bw : ℚ) :
    (hDensity fsqrt kde df rk vt bw).length = 1000 := by
  simp [hDensity, densityOf, linspace]

theorem min_lt_max_of_spread_ne (fsqrt : ℚ → ℚ) (costs : List ℚ) (hfs : fsqrt 0 = 0)
    (hne : costs ≠ []) (hsp : spreadOf fsqrt costs ≠ 0) :
    listMin costs < listMax costs := by
  by_contra hcon
  push_neg at hcon
  have hall : ∀ x ∈ costs, x = listMin costs := fun x hx =>
    le_antisymm (le_trans (listMax_ge costs x hx) hcon) (listMin_le costs x hx)
  refine hsp ?_
  unfold spreadOf
  rw [iqr_const costs (listMin costs) hall hne, if_neg (lt_irrefl 0),
    varPop_const costs (listMin costs) hall, hfs]

/-- Claim C3: past the sample-size and spread guards, when at least one
density peak meets the threshold `0.1·n/(max−min)` the function returns
the grid price at a qualifying peak that is no greater than the grid
price of any qualifying peak (the first peak in ascending price order,
not the tallest); when no peak qualifies it falls back to floor-division
bucketing by the target bandwidth and returns the smallest bucket among
those of maximal occupancy. -/
theorem identify_optimal_price_peak_rule (fsqrt : ℚ → ℚ)
    (kde : List ℚ → ℚ → ℚ → ℚ) (df : List HRow) (rk vt : Option String) (bw : ℚ)
    (hfs : fsqrt 0 = 0)
    (h5 : ¬ (hCosts df rk vt).length < 5)
    (hsp : spreadOf fsqrt (hCosts df rk vt) ≠ 0) :
    ((∃ i ∈ hPeaks fsqrt kde df rk vt bw,
        thresholdOf (hCosts df rk vt) ≤ (hDensity fsqrt kde df rk vt bw).getD i 0) →
      ∃ i ∈ hPeaks fsqrt kde df rk vt bw,
        thresholdOf (hCosts df rk vt) ≤ (hDensity fsqrt kde df rk vt bw).getD i 0 ∧
        identify_optimal_price fsqrt kde df rk vt bw =
          some ((hGrid df rk vt).getD i 0) ∧
        ∀ j ∈ hPeaks fsqrt kde df rk vt bw,
          thresholdOf (hCosts df rk vt) ≤ (hDensity fsqrt kde df rk vt bw).getD j 0 →
            (hGrid df rk vt).getD i 0 ≤ (hGrid df rk vt).getD j 0) ∧
    ((∀ i ∈ hPeaks fsqrt kde df rk vt bw,
        ¬ thresholdOf (hCosts df rk vt) ≤ (hDensity fsqrt kde df rk vt bw).getD i 0) →
      ∃ b, identify_optimal_price fsqrt kde df rk vt bw = some b ∧
        b ∈ (hCosts df rk vt).map (costGroup bw) ∧
        (∀ b' ∈ (hCosts df rk vt).map (costGroup bw),
          countOf ((hCosts df rk vt).map (costGroup bw)) b' ≤
            countOf ((hCosts df rk vt).map (costGroup bw)) b) ∧
        ∀ b' ∈ (hCosts df rk vt).map (costGroup bw),
          countOf ((hCosts df rk vt).map (costGroup bw)) b' =
            countOf ((hCosts df rk vt).map (costGroup bw)) b → b ≤ b') := by
  have hne : hCosts df rk vt ≠ [] := by
    intro hc
    rw [hc] at h5
    exact h5 (by norm_num)
  have hIdent : identify_optimal_price fsqrt kde df rk vt bw =
      match (hPeaks fsqrt kde df rk vt bw).find? fun idx =>
          decide (thresholdOf (hCosts df rk vt) ≤
            (hDensity fsqrt kde df rk vt bw).getD idx 0) with
      | some idx => some ((hGrid df rk vt).getD idx 0)
      | none => binnedMode (hCosts df rk vt) bw := by
    unfold identify_optimal_price
    rw [if_neg h5, if_neg hsp]
  constructor
  · rintro ⟨i0, hi0mem, hi0q⟩
    have hissome : ((hPeaks fsqrt kde df rk vt bw).find? fun idx =>
        decide (thresholdOf (hCosts df rk vt) ≤
          (hDensity fsqrt kde df rk vt bw).getD idx 0)).isSome :=
      List.find?_isSome.mpr ⟨i0, hi0mem, decide_eq_true hi0q⟩
    obtain ⟨i, hfi⟩ := Option.isSome_iff_exists.mp hissome
    have hiq : thresholdOf (hCosts df rk vt) ≤ (hDensity fsqrt kde df rk vt bw).getD i 0 :=
      of_decide_eq_true (by have h := List.find?_some hfi; exact h)
    refine ⟨i, List.mem_of_find?_eq_some hfi, hiq, by rw [hIdent, hfi], ?_⟩
    intro j hj hjq
    have hsorted : (hPeaks fsqrt kde df rk vt bw).Pairwise (· < ·) := by
      simp only [hPeaks, find_peaks]
      exact findPeaksGo_sorted _ _ _ _
    have hij : i ≤ j :=
      find?_first (· ≤ ·) le_refl _ (hsorted.imp le_of_lt) _ i hfi j hj (decide_eq_true hjq)
    have hjlt : j < 1000 := by
      have hj' : j ∈ findPeaksGo (hDensity fsqrt kde df rk vt bw)
          ((hDensity fsqrt kde df rk vt bw).length - 1)
          (hDensity fsqrt kde df rk vt bw).length 1 := by
        simpa [hPeaks, find_peaks] using hj
      obtain ⟨-, hjb⟩ := findPeaksGo_mem_bounds _ _ _ _ j hj'
      rw [hDensity_length] at hjb
      omega
    simp only [hGrid]
    exact linspace_getD_mono _ _
      (min_lt_max_of_spread_ne fsqrt _ hfs hne hsp) 1000 i j (by norm_num) hij hjlt
  · intro hnone
    have hfnone : ((hPeaks fsqrt kde df rk vt bw).find? fun idx =>
        decide (thresholdOf (hCosts df rk vt) ≤
          (hDensity fsqrt kde df rk vt bw).getD idx 0)) = none :=
      List.find?_eq_none.mpr fun j hj => by
        simp only [decide_eq_true_eq]
        exact hnone j hj
    rw [hIdent, hfnone]
    exact binnedMode_spec (hCosts df rk vt) bw hne

theorem densityOf_getD (kde : List ℚ → ℚ → ℚ → ℚ) (costs : List ℚ) (bw : ℚ) (i : ℕ)
    (hi : i < 1000) :
    (densityOf kde costs bw).getD i 0 =
      kde costs bw ((linspace (listMin costs) (listMax costs) 1000).getD i 0) := by
  have hlen : (linspace (listMin costs) (listMax costs) 1000).length = 1000 := by
    simp [linspace]
  unfold densityOf
  rw [List.getD_eq_getElem _ _ (by rw [List.length_map, hlen]; exact hi),
    List.getElem_map, List.getD_eq_getElem _ _ (by rw [hlen]; exact hi)]

/-- A kernel for the C3 witness: density 1 below price 1, 2 between 1 and
2, and 0 beyond — one early sharp peak on the grid. -/
def kdeW : List ℚ → ℚ → ℚ → ℚ :=
  fun _ _ x => if x < 1 then 1 else if x < 2 then 2 else 0

/-- Five observations spanning exactly 999 price units, so that the grid
spacing is 1. -/
def c3df : List HRow :=
  [⟨some 0, "k", "v"⟩, ⟨some 100, "k", "v"⟩, ⟨some 200, "k", "v"⟩,
   ⟨some 300, "k", "v"⟩, ⟨some 999, "k", "v"⟩]

theorem c3_costs : hCosts c3df none none = [0, 100, 200, 300, 999] := rfl

theorem c3_min : listMin [0, 100, 200, 300, 999] = 0 := by
  norm_num [listMin, min_def]

theorem c3_max : listMax [0, 100, 200, 300, 999] = 999 := by
  norm_num [listMax, max_def]

theorem c3_msort :
    ([0, 100, 200, 300, 999] : List ℚ).mergeSort (fun a b => decide (a ≤ b)) =
      [0, 100, 200, 300, 999] :=
  List.mergeSort_of_sorted (by norm_num [List.pairwise_cons])

theorem c3_iqr : iqr [0, 100, 200, 300, 999] = 200 := by
  have h75 : percentile [0, 100, 200, 300, 999] 75 = 300 := by
    simp only [percentile, c3_msort]
    norm_num
    rfl
  have h25 : percentile [0, 100, 200, 300, 999] 25 = 100 := by
    simp only [percentile, c3_msort]
    norm_num
  rw [iqr, h75, h25]
  norm_num

theorem c3_spread : spreadOf id (hCosts c3df none none) = 200 := by
  rw [c3_costs, spreadOf, c3_iqr, if_pos (by norm_num)]

theorem c3_grid (i : ℕ) (hi : i < 1000) :
    (hGrid c3df none none).getD i 0 = (i : ℚ) := by
  rw [hGrid, c3_costs, c3_min, c3_max, linspace_getD 0 999 1000 i hi]
  norm_num

theorem c3_dens (i : ℕ) (hi : i < 1000) :
    (hDensity id kdeW c3df none none 5).getD i 0 =
      kdeW (hCosts c3df none none) (5 / 200) ((i : ℚ)) := by
  rw [hDensity, c3_spread, densityOf_getD kdeW (hCosts c3df none none) (5 / 200) i hi]
  rw [show (linspace (listMin (hCosts c3df none none)) (listMax (hCosts c3df none none)) 1000)
      = hGrid c3df none none from rfl, c3_grid i hi]

theorem c3_dens0 : (hDensity id kdeW c3df none none 5).getD 0 0 = 1 := by
  rw [c3_dens 0 (by norm_num)]
  norm_num [kdeW]

theorem c3_dens1 : (hDensity id kdeW c3df none none 5).getD 1 0 = 2 := by
  rw [c3_dens 1 (by norm_num)]
  norm_num [kdeW]

theorem c3_dens2 : (hDensity id kdeW c3df none none 5).getD 2 0 = 0 := by
  rw [c3_dens 2 (by norm_num)]
  norm_num [kdeW]

theorem c3_plateau :
    plateauEnd (hDensity id kdeW c3df none none 5)
      ((hDensity id kdeW c3df none none 5).getD 1 0) 999 999 2 = 2 := by
  show plateauEnd (hDensity id kdeW c3df none none 5)
      ((hDensity id kdeW c3df none none 5).getD 1 0) 999 (998 + 1) 2 = 2
  rw [plateauEnd]
  rw [if_neg]
  intro h
  rw [c3_dens1, c3_dens2] at h
  exact absurd h.2 (by norm_num)

theorem c3_peaks_head :
    hPeaks id kdeW c3df none none 5 =
      1 :: findPeaksGo (hDensity id kdeW c3df none none 5) 999 999 3 := by
  rw [hPeaks, find_peaks, hDensity_length]
  show findPeaksGo (hDensity id kdeW c3df none none 5) (1000 - 1) (999 + 1) 1 = _
  rw [show (1000 - 1 : ℕ) = 999 from rfl]
  rw [findPeaksGo]
  rw [if_pos (by norm_num : (1 : ℕ) < 999)]
  rw [show (1 - 1 : ℕ) = 0 from rfl]
  rw [if_pos (by rw [c3_dens0, c3_dens1]; norm_num)]
  rw [show (1 + 1 : ℕ) = 2 from rfl, c3_plateau]
  rw [if_pos (by rw [c3_dens2, c3_dens1]; norm_num)]

/-- Witness for C3 at a concrete dataset and kernel: the density has one
qualifying peak at grid index 1, and the function returns its price. -/
theorem identify_optimal_price_peak_rule_witness :
    ∃ i ∈ hPeaks id kdeW c3df none none 5,
      thresholdOf (hCosts c3df none none) ≤ (hDensity id kdeW c3df none none 5).getD i 0 ∧
      identify_optimal_price id kdeW c3df none none 5 =
        some ((hGrid c3df none none).getD i 0) ∧
      ∀ j ∈ hPeaks id kdeW c3df none none 5,
        thresholdOf (hCosts c3df none none) ≤ (hDensity id kdeW c3df none none 5).getD j 0 →
          (hGrid c3df none none).getD i 0 ≤ (hGrid c3df none none).getD j 0 :=
  (identify_optimal_price_peak_rule id kdeW c3df none none 5 rfl
      (by rw [c3_costs]; norm_num)
      (by rw [c3_spread]; norm_num)).1
    ⟨1, by rw [c3_peaks_head]; exact List.mem_cons_self _ _,
      by rw [c3_dens1, thresholdOf, c3_costs, c3_min, c3_max]; norm_num⟩

end CarrierPricing
